import Mathlib

/-!
Shallow embedding of the `eventsource` package of rnovatorov/go-eventsourcing
(the generic `AggregateRepository` over an `EventStore`) together with the
`Book` domain model from `examples/accounting/model/book.go`.

Go conventions are modelled as follows:
- `error` values become the inductive `GoError`; `fmt.Errorf("ctx: %w", err)`
  becomes `GoError.wrap "ctx" err`, and `errors.Is` becomes `GoError.is`
  (which unwraps the chain exactly as the Go standard library does).
- Fallible functions return `Except GoError α`.
- The event store is an abstract interface (as in the Go code, where
  `EventStore` is an interface): a state type `σ` with `listEvents` and
  `saveEvents` operations; mutation of the store becomes explicit state
  passing (`saveEvents` returns the new store state on success).
- `uuid.NewRandom()` and `time.Now()` become values supplied through `Ctx`
  (the Go `context.Context` plus the ambient sources of randomness/time);
  the identifier-generation error path of `uuid.NewRandom` is not modelled.
- Go `int` becomes `Int`; Go maps become association lists, Go string-keyed
  sets become duplicate-free lists built by `insertID`.
-/

namespace Eventsource

/-- Go `error` values: the sentinel errors of the `eventsource` package,
domain-specific sentinels (`custom`), and `fmt.Errorf("...: %w", err)`
wrapping. -/
inductive GoError : Type where
  | concurrentUpdate
  | aggregateDoesNotExist
  | aggregateAlreadyExists
  | commandUnknown
  | custom (name : String)
  | wrap (ctx : String) (cause : GoError)
deriving DecidableEq

/-- Go `errors.Is(e, target)`: `e` equals `target`, or some error in `e`'s
unwrap chain does. -/
def GoError.is : GoError → GoError → Bool
  | .wrap c cause, target =>
      decide (GoError.wrap c cause = target) || GoError.is cause target
  | e, target => decide (e = target)

/-- Metadata values are Go `any`; the repository only ever type-asserts them
to `string`, so the model distinguishes strings from everything else. -/
inductive MetaValue : Type where
  | str (s : String)
  | other
deriving DecidableEq

/-- Go `Metadata` is `map[string]any`; modelled as an association list with
unique keys assumed where it matters. -/
abbrev Metadata : Type := List (String × MetaValue)

/-- Lookup of a metadata key followed by the Go type assertion `.(string)`:
yields the value only when it is present and is a string. -/
def Metadata.lookupString (m : Metadata) (k : String) : Option String :=
  match m.lookup k with
  | some (.str s) => some s
  | _ => none

/-- Modelled from the spec: the metadata key under which the causation
identifier is stored (its definition is outside the given sources; the
concrete key string is immaterial to the claims). -/
def CausationID : String := "causation_id"

/-- One persisted event (struct `Event`); `data` is the state-change payload
of type `S`. The `anypb` round trip (`anypb.New` / `UnmarshalNew`) is the
identity in this model, so `data` holds the decoded payload directly. -/
structure Event (S : Type) : Type where
  id : String
  aggregateID : String
  aggregateVersion : Int
  timestamp : Int
  metadata : Metadata
  data : S
deriving DecidableEq

/-- Modelled from the spec: the `EventStore` interface consumed by the
repository. `listEvents id` returns all events of the aggregate `id` in
order (or a transport error); `saveEvents id expectedVersion events`
atomically appends iff the stream currently has exactly `expectedVersion`
events, failing with a concurrency-conflict error otherwise. Here it is kept
abstract: any `σ` with the two operations, errors left arbitrary so that
theorems quantify over every conforming (or even non-conforming) backend. -/
structure EventStore (σ S : Type) : Type where
  listEvents : σ → String → Except GoError (List (Event S))
  saveEvents : σ → String → Int → List (Event S) → Except GoError σ

/-- The `aggregateRoot[T]` capability set: a zero value (`new(T)`), command
processing and state application, for root state `T`, commands `C` and
state-change payloads `S`. -/
structure AggregateRoot (T C S : Type) : Type where
  init : T
  processCommand : T → C → Except GoError (List S)
  applyStateChange : T → S → T

/-- Struct `Aggregate[T, R]`: identity, version, root state, the queue of
not-yet-persisted state changes, and the causation identifiers seen during
replay (a Go set, modelled as a duplicate-free list). -/
structure Aggregate (T S : Type) : Type where
  id : String
  version : Int
  root : T
  stateChanges : List S
  causationIDs : List String
deriving DecidableEq

/-- The ambient inputs of a repository call: the context-derived metadata
(`MetadataFromContext(ctx)`), a fresh aggregate identifier for the
`uuid.NewRandom()` call of `Create`/`GetOrCreate`, a supply of fresh event
identifiers for the `uuid.NewRandom()` calls of `Save`, and the wall clock
(`time.Now()`). -/
structure Ctx : Type where
  metadata : Metadata
  genID : String
  eventID : Nat → String
  now : Int

/-- Modelled from the spec: `Aggregate.ChangeState` runs `ProcessCommand`
and, for each resulting state change in order, applies it to the root,
advances the version, and appends it to the pending state changes; on a
`ProcessCommand` error nothing is changed and the error is returned. -/
def Aggregate.changeState {T C S : Type} (R : AggregateRoot T C S)
    (agg : Aggregate T S) (cmd : C) : Except GoError (Aggregate T S) :=
  match R.processCommand agg.root cmd with
  | .error e => .error e
  | .ok changes =>
      .ok { agg with
              root := changes.foldl R.applyStateChange agg.root
              version := agg.version + changes.length
              stateChanges := agg.stateChanges ++ changes }

/-- Go set insertion `causationIDs[id] = struct{}{}` on the list model. -/
def insertID (acc : List String) (c : String) : List String :=
  if c ∈ acc then acc else acc ++ [c]

/-- The causation-identifier accumulation of the `Load` loop:
`if id, ok := event.Metadata[CausationID].(string); ok { causationIDs[id] = ... }`. -/
def collectCausationIDs {S : Type} (events : List (Event S)) : List String :=
  events.foldl
    (fun acc e =>
      match Metadata.lookupString e.metadata CausationID with
      | some c => insertID acc c
      | none => acc)
    []

namespace AggregateRepository

/-- The aggregate that the `Load` loop reconstructs from an event list: fold
the events into a zero-value root via `ApplyStateChange`, take each event's
`AggregateVersion` as the running version (so the last event's version
remains), and collect causation identifiers. The Go loop updates the three
accumulators in one pass; the folds below are its accumulator-wise
decomposition. -/
def replayAggregate {T C S : Type} (R : AggregateRoot T C S) (id : String)
    (events : List (Event S)) : Aggregate T S :=
  { id := id
    version := events.foldl (fun _ e => e.aggregateVersion) 0
    root := events.foldl (fun t e => R.applyStateChange t e.data) R.init
    stateChanges := []
    causationIDs := collectCausationIDs events }

/-- `AggregateRepository.Load`: list the events and replay them. The
unmarshal error path is absent because `data` is already decoded in this
model. -/
def Load {σ T C S : Type} (es : EventStore σ S) (R : AggregateRoot T C S)
    (s : σ) (id : String) : Except GoError (Aggregate T S) :=
  match es.listEvents s id with
  | .error e => .error (.wrap "list events" e)
  | .ok events => .ok (replayAggregate R id events)

/-- The event-construction loop of `Save`: the `i`-th pending state change
(0-based, with `i` starting from the given index) becomes an `Event` with a
fresh identifier, `AggregateVersion = originalVersion + i + 1`, the current
timestamp and the context-derived metadata. -/
def mkEvents {S : Type} (ctx : Ctx) (aggID : String) (originalVersion : Int) :
    Nat → List S → List (Event S)
  | _, [] => []
  | i, sc :: rest =>
      { id := ctx.eventID i
        aggregateID := aggID
        aggregateVersion := originalVersion + i + 1
        timestamp := ctx.now
        metadata := ctx.metadata
        data := sc } :: mkEvents ctx aggID originalVersion (i + 1) rest

/-- `originalVersion := agg.Version() - len(agg.stateChanges)` of `Save`. -/
def originalVersion {T S : Type} (agg : Aggregate T S) : Int :=
  agg.version - agg.stateChanges.length

/-- The batch of events that `Save` builds for an aggregate's pending state
changes (the loop over `agg.stateChanges`, starting at index 0). -/
def saveBatch {T S : Type} (ctx : Ctx) (agg : Aggregate T S) :
    List (Event S) :=
  mkEvents ctx agg.id (originalVersion agg) 0 agg.stateChanges

/-- `AggregateRepository.Save`: success immediately when there are no pending
state changes; otherwise build one event per pending change from
`originalVersion = version - len(stateChanges)`, call
`EventStore.SaveEvents` with `originalVersion` as the expected version, and
on success clear the pending changes (`agg.stateChanges = nil`). -/
def Save {σ T S : Type} (es : EventStore σ S) (ctx : Ctx) (s : σ)
    (agg : Aggregate T S) : Except GoError (σ × Aggregate T S) :=
  if agg.stateChanges.isEmpty then .ok (s, agg)
  else
    match es.saveEvents s agg.id (originalVersion agg) (saveBatch ctx agg) with
    | .error e => .error (.wrap "save events" e)
    | .ok s' => .ok (s', { agg with stateChanges := [] })

/-- `AggregateRepository.Get`: load, fail with `ErrAggregateDoesNotExist` on
version zero, otherwise return the loaded aggregate. Read-only: the result
carries no store state and `saveEvents` is never consulted. -/
def Get {σ T C S : Type} (es : EventStore σ S) (R : AggregateRoot T C S)
    (s : σ) (id : String) : Except GoError (Aggregate T S) :=
  match Load es R s id with
  | .error e => .error e
  | .ok agg =>
      if agg.version = 0 then .error .aggregateDoesNotExist
      else .ok agg

/-- `AggregateRepository.Create`: substitute a fresh identifier for an empty
`id`; load; fail with `ErrAggregateAlreadyExists` on non-zero version;
otherwise change state and save, translating a concurrent-update save
failure into `ErrAggregateAlreadyExists` and wrapping any other one. -/
def Create {σ T C S : Type} (es : EventStore σ S) (R : AggregateRoot T C S)
    (ctx : Ctx) (s : σ) (id : String) (cmd : C) :
    Except GoError (σ × Aggregate T S) :=
  let id := if id = "" then ctx.genID else id
  match Load es R s id with
  | .error e => .error (.wrap "load" e)
  | .ok agg =>
      if agg.version ≠ 0 then .error .aggregateAlreadyExists
      else
        match agg.changeState R cmd with
        | .error e => .error (.wrap "change state" e)
        | .ok agg =>
            match Save es ctx s agg with
            | .error e =>
                if e.is .concurrentUpdate then .error .aggregateAlreadyExists
                else .error (.wrap "save" e)
            | .ok sa => .ok sa

/-- `AggregateRepository.GetOrCreate`: substitute a fresh identifier for an
empty `id`; load; return the existing aggregate unchanged on positive
version; otherwise change state and save, and on a concurrent-update save
failure re-load and return whatever now exists. -/
def GetOrCreate {σ T C S : Type} (es : EventStore σ S)
    (R : AggregateRoot T C S) (ctx : Ctx) (s : σ) (id : String) (cmd : C) :
    Except GoError (σ × Aggregate T S) :=
  let id := if id = "" then ctx.genID else id
  match Load es R s id with
  | .error e => .error (.wrap "load" e)
  | .ok agg =>
      if agg.version > 0 then .ok (s, agg)
      else
        match agg.changeState R cmd with
        | .error e => .error (.wrap "change state" e)
        | .ok agg =>
            match Save es ctx s agg with
            | .error e =>
                if e.is .concurrentUpdate then
                  match Load es R s id with
                  | .error e' => .error (.wrap "load" e')
                  | .ok agg' => .ok (s, agg')
                else .error (.wrap "save" e)
            | .ok sa => .ok sa

/-- `AggregateRepository.Update`: load; fail with `ErrAggregateDoesNotExist`
on version zero; otherwise change state and save, wrapping any save failure
without translating it. -/
def Update {σ T C S : Type} (es : EventStore σ S) (R : AggregateRoot T C S)
    (ctx : Ctx) (s : σ) (id : String) (cmd : C) :
    Except GoError (σ × Aggregate T S) :=
  match Load es R s id with
  | .error e => .error (.wrap "load" e)
  | .ok agg =>
      if agg.version = 0 then .error .aggregateDoesNotExist
      else
        match agg.changeState R cmd with
        | .error e => .error (.wrap "change state" e)
        | .ok agg =>
            match Save es ctx s agg with
            | .error e => .error (.wrap "save" e)
            | .ok sa => .ok sa

end AggregateRepository

/-- The running maximum of the events' `aggregateVersion` values (what the
spec calls "the highest `aggregateVersion` seen", starting from 0). -/
def maxVersion {S : Type} (events : List (Event S)) : Int :=
  events.foldl (fun m e => max m e.aggregateVersion) 0

end Eventsource

namespace Accounting

/-- The protobuf `AccountType` enum: `UNKNOWN` plus the concrete account
types, which the given sources never enumerate individually. -/
inductive AccountType : Type where
  | unknown
  | known (tag : String)
deriving DecidableEq

/-- Struct `Account` (fields as set by `Book.applyAccountAdded`). -/
structure Account : Type where
  name : String
  type_ : AccountType
  balance : Int
deriving DecidableEq

/-- Struct `Transaction` (fields as set by `Book.applyTransactionEntered`). -/
structure Transaction : Type where
  timestamp : Int
  accountDebited : String
  accountCredited : String
  amount : Int
deriving DecidableEq

/-- The state-change payloads reaching `Book.ApplyStateChange`. The payload
universe is open in Go (any protobuf message can arrive after decoding), so
`unrecognized` stands for every payload other than the four the `Book`
declares it handles. -/
inductive BookStateChange : Type where
  | bookCreated (description : String)
  | bookClosed
  | bookAccountAdded (name : String) (type_ : AccountType)
  | bookTransactionEntered (timestamp : Int)
      (accountDebited accountCredited : String)
      (amount accountDebitedNewBalance accountCreditedNewBalance : Int)
  | unrecognized (typeName : String)
deriving DecidableEq

/-- Does `Book.ApplyStateChange` declare a case for this payload type? -/
def BookStateChange.recognized : BookStateChange → Bool
  | .unrecognized _ => false
  | _ => true

/-- Struct `Book`; the Go map `accounts` is an association list (so the Go
distinction between a nil and an empty map, and the nil-pointer panics of
writes through missing keys, are outside this model). -/
structure Book : Type where
  created : Bool
  closed : Bool
  description : String
  transactions : List Transaction
  accounts : List (String × Account)
deriving DecidableEq

/-- The zero value `new(Book)` dereferenced. -/
def Book.zero : Book :=
  { created := false, closed := false, description := ""
    transactions := [], accounts := [] }

/-- Go map assignment `m[k] = v` on the association-list model. -/
def mapInsert (m : List (String × Account)) (k : String) (v : Account) :
    List (String × Account) :=
  (k, v) :: m.filter (fun p => p.1 ≠ k)

/-- Go map update of an existing entry's `balance` field; a missing key is a
no-op here where Go would panic on the nil pointer. -/
def mapSetBalance (m : List (String × Account)) (k : String) (b : Int) :
    List (String × Account) :=
  m.map (fun p => if p.1 = k then (p.1, { p.2 with balance := b }) else p)

/-- `Book.applyCreated`. -/
def Book.applyCreated (b : Book) (description : String) : Book :=
  { b with created := true, description := description, accounts := [] }

/-- `Book.applyClosed`. -/
def Book.applyClosed (b : Book) : Book :=
  { b with closed := true }

/-- `Book.applyAccountAdded`. -/
def Book.applyAccountAdded (b : Book) (name : String) (t : AccountType) :
    Book :=
  { b with accounts :=
      mapInsert b.accounts name { name := name, type_ := t, balance := 0 } }

/-- `Book.applyTransactionEntered`. -/
def Book.applyTransactionEntered (b : Book) (timestamp : Int)
    (accountDebited accountCredited : String)
    (amount accountDebitedNewBalance accountCreditedNewBalance : Int) :
    Book :=
  { b with
      accounts :=
        mapSetBalance
          (mapSetBalance b.accounts accountDebited accountDebitedNewBalance)
          accountCredited accountCreditedNewBalance
      transactions := b.transactions ++
        [{ timestamp := timestamp, accountDebited := accountDebited
           accountCredited := accountCredited, amount := amount }] }

/-- `Book.ApplyStateChange`: dispatch on the payload type; the `default`
branch panics in Go (`panic(fmt.Sprintf("unexpected state change: %T", sc))`)
and is modelled as `none`. -/
def Book.ApplyStateChange (b : Book) (sc : BookStateChange) : Option Book :=
  match sc with
  | .bookCreated d => some (b.applyCreated d)
  | .bookClosed => some b.applyClosed
  | .bookAccountAdded n t => some (b.applyAccountAdded n t)
  | .bookTransactionEntered ts ad ac am db cb =>
      some (b.applyTransactionEntered ts ad ac am db cb)
  | .unrecognized _ => none

end Accounting

namespace Eventsource

/-- A simple concrete root over `Int` state, `Unit` commands and `Unit`
payloads: every command yields one state change, and applying a change
increments the state. Used to exercise the generic theorems. -/
def exRoot : AggregateRoot Int Unit Unit :=
  { init := 0
    processCommand := fun _ _ => .ok [()]
    applyStateChange := fun t _ => t + 1 }

/-- A root whose commands are accepted but produce no state changes. -/
def exRootNoop : AggregateRoot Int Unit Unit :=
  { init := 0
    processCommand := fun _ _ => .ok []
    applyStateChange := fun t _ => t + 1 }

/-- A concrete call context with trivial metadata, identifier supply and
clock. -/
def exCtx : Ctx :=
  { metadata := [], genID := "gen", eventID := fun _ => "e", now := 7 }

/-- A concrete stored event at version 1 carrying a causation identifier. -/
def evOne : Event Unit :=
  { id := "e1", aggregateID := "a", aggregateVersion := 1, timestamp := 3
    metadata := [(CausationID, .str "c1")], data := () }

/-- A store (state: a counter) with no events whose appends always succeed. -/
def esEmpty : EventStore Int Unit :=
  { listEvents := fun _ _ => .ok []
    saveEvents := fun s _ _ _ => .ok (s + 1) }

/-- A store holding exactly `evOne` for every identifier; appends succeed. -/
def esOne : EventStore Int Unit :=
  { listEvents := fun _ _ => .ok [evOne]
    saveEvents := fun s _ _ _ => .ok (s + 1) }

/-- A store with no events whose appends always lose the optimistic
concurrency race. -/
def esConflict : EventStore Int Unit :=
  { listEvents := fun _ _ => .ok []
    saveEvents := fun _ _ _ _ => .error .concurrentUpdate }

/-- A store holding `evOne` whose appends always lose the race. -/
def esOneConflict : EventStore Int Unit :=
  { listEvents := fun _ _ => .ok [evOne]
    saveEvents := fun _ _ _ _ => .error .concurrentUpdate }

/-- A store with no events whose appends fail with a non-conflict error. -/
def esBroken : EventStore Int Unit :=
  { listEvents := fun _ _ => .ok []
    saveEvents := fun _ _ _ _ => .error (.custom "io") }

/-- An aggregate holding one pending state change, its version already
advanced by `ChangeState` (so the durable stream holds 0 events). -/
def aggPending : Aggregate Int Unit :=
  { id := "a", version := 1, root := 1, stateChanges := [()]
    causationIDs := [] }

/-- An aggregate with no pending state changes at version 1. -/
def aggClean : Aggregate Int Unit :=
  { id := "a", version := 1, root := 1, stateChanges := []
    causationIDs := ["c1"] }

end Eventsource

namespace Eventsource

theorem GoError.is_wrap_concurrentUpdate (c : String) (e : GoError) :
    (GoError.wrap c e).is .concurrentUpdate = e.is .concurrentUpdate := by
  simp [GoError.is]

theorem GoError.is_wrap_of_is (c : String) {e t : GoError}
    (h : e.is t = true) : (GoError.wrap c e).is t = true := by
  simp [GoError.is, h]

theorem mkEvents_length {S : Type} (ctx : Ctx) (aggID : String)
    (ov : Int) (i : Nat) (changes : List S) :
    (AggregateRepository.mkEvents ctx aggID ov i changes).length
      = changes.length := by
  induction changes generalizing i with
  | nil => rfl
  | cons sc rest ih => simp [AggregateRepository.mkEvents, ih]

theorem mkEvents_map_data {S : Type} (ctx : Ctx) (aggID : String)
    (ov : Int) (i : Nat) (changes : List S) :
    (AggregateRepository.mkEvents ctx aggID ov i changes).map
        (fun e => e.data) = changes := by
  induction changes generalizing i with
  | nil => rfl
  | cons sc rest ih => simp [AggregateRepository.mkEvents, ih]

theorem mkEvents_version {S : Type} (ctx : Ctx) (aggID : String)
    (ov : Int) (i : Nat) (changes : List S) (j : Nat)
    (hj : j < (AggregateRepository.mkEvents ctx aggID ov i changes).length) :
    ((AggregateRepository.mkEvents ctx aggID ov i changes).get
        ⟨j, hj⟩).aggregateVersion = ov + (i + j) + 1 := by
  induction changes generalizing i j with
  | nil => exact absurd hj (by simp [AggregateRepository.mkEvents])
  | cons sc rest ih =>
      cases j with
      | zero => simp [AggregateRepository.mkEvents]
      | succ j' =>
          have h' := ih (i + 1) j'
            (by simpa [AggregateRepository.mkEvents, mkEvents_length] using hj)
          simp only [AggregateRepository.mkEvents, List.get] at h' ⊢
          rw [h']
          push_cast
          ring

theorem insertID_mem (acc : List String) (c d : String) :
    c ∈ insertID acc d ↔ c ∈ acc ∨ c = d := by
  by_cases h : d ∈ acc <;> simp [insertID, h]
  exact fun hc => hc ▸ h

theorem mem_collect_step {S : Type} (evs : List (Event S))
    (acc : List String) (c : String) :
    (c ∈ evs.foldl
        (fun acc e =>
          match Metadata.lookupString e.metadata CausationID with
          | some d => insertID acc d
          | none => acc) acc)
      ↔ c ∈ acc ∨ ∃ e ∈ evs,
          Metadata.lookupString e.metadata CausationID = some c := by
  induction evs generalizing acc with
  | nil => simp
  | cons e rest ih =>
      rw [List.foldl_cons, ih]
      rcases h : Metadata.lookupString e.metadata CausationID with _ | d
      · simp [h]
      · simp only [h, insertID_mem]
        constructor
        · rintro (⟨hc | rfl⟩ | hrest)
          · exact Or.inl hc
          · exact Or.inr ⟨e, by simp [h]⟩
          · obtain ⟨e', he', hl⟩ := hrest
            exact Or.inr ⟨e', by simp [he'], hl⟩
        · rintro (hc | ⟨e', he', hl⟩)
          · exact Or.inl (Or.inl hc)
          · rcases List.mem_cons.mp he' with rfl | hm
            · rw [h] at hl
              exact Or.inl (Or.inr (Option.some.inj hl).symm)
            · exact Or.inr ⟨e', hm, hl⟩

theorem mem_collectCausationIDs {S : Type} (evs : List (Event S))
    (c : String) :
    c ∈ collectCausationIDs evs
      ↔ ∃ e ∈ evs, Metadata.lookupString e.metadata CausationID = some c := by
  simpa [collectCausationIDs] using mem_collect_step evs [] c

theorem foldl_version_eq_max {S : Type} (l : List (Event S)) (v : Int)
    (hp : (l.map fun e => e.aggregateVersion).Pairwise (· ≤ ·))
    (hb : ∀ e ∈ l, v ≤ e.aggregateVersion) :
    l.foldl (fun _ e => e.aggregateVersion) v
      = l.foldl (fun m e => max m e.aggregateVersion) v := by
  induction l generalizing v with
  | nil => rfl
  | cons e rest ih =>
      rw [List.map_cons, List.pairwise_cons] at hp
      rw [List.foldl_cons, List.foldl_cons,
        max_eq_right (hb e (List.mem_cons_self e rest))]
      exact ih e.aggregateVersion hp.2
        (fun e' he' => hp.1 e'.aggregateVersion (List.mem_map_of_mem _ he'))

end Eventsource

namespace Eventsource

/-- C1: for every Aggregate with a non-empty `stateChanges` list, `Save`
builds one event per pending state change in production order, numbering
them `originalVersion + i + 1` for `originalVersion = version - len`, calls
`EventStore.SaveEvents` with `originalVersion` as the expected version, and
on success clears the pending state changes. -/
theorem save_builds_contiguous_batch {σ T S : Type} (es : EventStore σ S)
    (ctx : Ctx) (s : σ) (agg : Aggregate T S)
    (h : agg.stateChanges ≠ []) :
    (AggregateRepository.saveBatch ctx agg).map (fun e => e.data)
        = agg.stateChanges
    ∧ (∀ (j : Nat)
        (hj : j < (AggregateRepository.saveBatch ctx agg).length),
        ((AggregateRepository.saveBatch ctx agg).get ⟨j, hj⟩).aggregateVersion
          = AggregateRepository.originalVersion agg + j + 1)
    ∧ AggregateRepository.Save es ctx s agg
        = (match es.saveEvents s agg.id
              (AggregateRepository.originalVersion agg)
              (AggregateRepository.saveBatch ctx agg) with
           | .error e => .error (.wrap "save events" e)
           | .ok s' => .ok (s', { agg with stateChanges := [] })) := by
  refine ⟨?_, ?_, ?_⟩
  · simpa [AggregateRepository.saveBatch] using
      mkEvents_map_data ctx agg.id (AggregateRepository.originalVersion agg)
        0 agg.stateChanges
  · intro j hj
    have h0 := mkEvents_version ctx agg.id
      (AggregateRepository.originalVersion agg) 0 agg.stateChanges j
      (by simpa [AggregateRepository.saveBatch] using hj)
    simpa [AggregateRepository.saveBatch] using h0
  · have hne : agg.stateChanges.isEmpty = false := by simpa using h
    simp [AggregateRepository.Save, hne]

/-- C1 witness: a concrete save of one pending state change on top of an
empty stream. -/
theorem save_builds_contiguous_batch_witness :
    (AggregateRepository.saveBatch exCtx aggPending).map (fun e => e.data)
        = aggPending.stateChanges
    ∧ AggregateRepository.Save esEmpty exCtx 0 aggPending
        = .ok (1, { aggPending with stateChanges := [] }) := by
  have h := save_builds_contiguous_batch esEmpty exCtx (0 : Int) aggPending
    (by decide)
  refine ⟨h.1, ?_⟩
  rw [h.2.2]
  rfl

end Eventsource

namespace Eventsource

/-- C2 counterexample: an aggregate at version 1 with one pending state
change saves successfully, yet its version afterwards is still 1, not
`1 + 1` as the claim "version after Save = version before Save +
len(pendingStateChanges before Save)" would require. -/
theorem save_version_unchanged_counterexample :
    AggregateRepository.Save esEmpty exCtx 0 aggPending
        = .ok (1, { aggPending with stateChanges := [] })
    ∧ ({ aggPending with stateChanges := [] } : Aggregate Int Unit).version
        ≠ aggPending.version + aggPending.stateChanges.length := by
  exact ⟨rfl, by decide⟩

/-- C2 (amended): a successful `Save` leaves the aggregate's version
unchanged; equivalently, the version afterwards equals the expected version
passed to the store (`originalVersion`) plus the number of pending state
changes held before the Save, the version having already been advanced when
the changes were recorded. -/
theorem save_version_unchanged {σ T S : Type} (es : EventStore σ S)
    (ctx : Ctx) (s : σ) (agg : Aggregate T S) (s' : σ)
    (agg' : Aggregate T S)
    (h : AggregateRepository.Save es ctx s agg = .ok (s', agg')) :
    agg'.version = agg.version
    ∧ agg'.version
        = AggregateRepository.originalVersion agg
            + agg.stateChanges.length := by
  have hv : agg'.version = agg.version := by
    unfold AggregateRepository.Save at h
    split at h
    · exact (congrArg (fun p => p.2.version) (Except.ok.inj h)).symm ▸ rfl
    · split at h
      · exact absurd h (by simp)
      · exact (congrArg (fun p => p.2.version) (Except.ok.inj h)).symm ▸ rfl
  refine ⟨hv, ?_⟩
  rw [hv]
  unfold AggregateRepository.originalVersion
  omega

/-- C2 witness: the amended statement at a concrete successful save. -/
theorem save_version_unchanged_witness :
    ({ aggPending with stateChanges := [] } : Aggregate Int Unit).version
        = aggPending.version
    ∧ ({ aggPending with stateChanges := [] } : Aggregate Int Unit).version
        = AggregateRepository.originalVersion aggPending
            + aggPending.stateChanges.length :=
  save_version_unchanged esEmpty exCtx 0 aggPending 1
    { aggPending with stateChanges := [] } rfl

end Eventsource

namespace Eventsource

/-- C3: when `Load` yields a positive version, `GetOrCreate` returns the
loaded aggregate unchanged without applying the command; when it yields
version 0, `GetOrCreate` applies the command and saves, and a save failure
that `errors.Is` recognizes as a concurrency conflict is reconciled by
re-loading and returning the re-loaded aggregate rather than an error. -/
theorem getOrCreate_returns_existing_or_reconciles {σ T C S : Type}
    (es : EventStore σ S) (R : AggregateRoot T C S) (ctx : Ctx) (s : σ)
    (id : String) (cmd : C) (agg : Aggregate T S) (hid : id ≠ "")
    (hl : AggregateRepository.Load es R s id = .ok agg) :
    (0 < agg.version →
        AggregateRepository.GetOrCreate es R ctx s id cmd = .ok (s, agg))
    ∧ (agg.version = 0 → ∀ agg₁,
        agg.changeState R cmd = .ok agg₁ →
        (∀ s' agg₂,
            AggregateRepository.Save es ctx s agg₁ = .ok (s', agg₂) →
            AggregateRepository.GetOrCreate es R ctx s id cmd
              = .ok (s', agg₂))
        ∧ (∀ e, AggregateRepository.Save es ctx s agg₁ = .error e →
            e.is .concurrentUpdate = true →
            AggregateRepository.GetOrCreate es R ctx s id cmd
              = .ok (s, agg))) := by
  constructor
  · intro hv
    simp [AggregateRepository.GetOrCreate, if_neg hid, hl, hv]
  · intro hv agg₁ hcs
    constructor
    · intro s' agg₂ hs
      simp [AggregateRepository.GetOrCreate, if_neg hid, hl, hv, hcs, hs]
    · intro e hs hconc
      simp [AggregateRepository.GetOrCreate, if_neg hid, hl, hv, hcs, hs,
        hconc]

/-- C3 witness: a concrete first-time initialization losing the optimistic
race and being reconciled to the (still empty) re-loaded aggregate. -/
theorem getOrCreate_reconciles_witness :
    AggregateRepository.GetOrCreate esConflict exRoot exCtx 0 "a" ()
        = .ok (0, AggregateRepository.replayAggregate exRoot "a" []) := by
  have h := getOrCreate_returns_existing_or_reconciles esConflict exRoot
    exCtx (0 : Int) "a" () (AggregateRepository.replayAggregate exRoot "a" [])
    (by decide) rfl
  exact (h.2 rfl ⟨"a", 1, 1, [()], []⟩ rfl).2
    (.wrap "save events" .concurrentUpdate) rfl rfl

end Eventsource

namespace Eventsource

/-- C4: `Create` substitutes the freshly generated identifier for an empty
`id`; fails with `ErrAggregateAlreadyExists` when the loaded version is
non-zero; translates a save failure that `errors.Is` recognizes as a
concurrency conflict into `ErrAggregateAlreadyExists`; and wraps and
propagates any other save failure. -/
theorem create_conflict_as_already_exists {σ T C S : Type}
    (es : EventStore σ S) (R : AggregateRoot T C S) (ctx : Ctx) (s : σ)
    (id : String) (cmd : C) (agg : Aggregate T S) (hid : id ≠ "")
    (hl : AggregateRepository.Load es R s id = .ok agg) :
    AggregateRepository.Create es R ctx s "" cmd
        = AggregateRepository.Create es R ctx s ctx.genID cmd
    ∧ (agg.version ≠ 0 →
        AggregateRepository.Create es R ctx s id cmd
          = .error .aggregateAlreadyExists)
    ∧ (agg.version = 0 → ∀ agg₁,
        agg.changeState R cmd = .ok agg₁ →
        ∀ e, AggregateRepository.Save es ctx s agg₁ = .error e →
          ((e.is .concurrentUpdate = true →
              AggregateRepository.Create es R ctx s id cmd
                = .error .aggregateAlreadyExists)
           ∧ (e.is .concurrentUpdate = false →
              AggregateRepository.Create es R ctx s id cmd
                = .error (.wrap "save" e)))) := by
  refine ⟨?_, ?_, ?_⟩
  · by_cases hg : ctx.genID = "" <;>
      simp [AggregateRepository.Create, hg]
  · intro hv
    simp [AggregateRepository.Create, if_neg hid, hl, hv]
  · intro hv agg₁ hcs e hs
    constructor
    · intro hconc
      simp [AggregateRepository.Create, if_neg hid, hl, hv, hcs, hs, hconc]
    · intro hconc
      simp [AggregateRepository.Create, if_neg hid, hl, hv, hcs, hs, hconc]

/-- C4 witness: a concrete `Create` losing the optimistic race and reporting
`ErrAggregateAlreadyExists` instead of the conflict. -/
theorem create_conflict_as_already_exists_witness :
    AggregateRepository.Create esConflict exRoot exCtx 0 "a" ()
        = .error .aggregateAlreadyExists := by
  have h := create_conflict_as_already_exists esConflict exRoot exCtx
    (0 : Int) "a" () (AggregateRepository.replayAggregate exRoot "a" [])
    (by decide) rfl
  exact (h.2.2 rfl ⟨"a", 1, 1, [()], []⟩ rfl
    (.wrap "save events" .concurrentUpdate) rfl).1 rfl

/-- C5: `Update` fails with `ErrAggregateDoesNotExist` when the loaded
version is zero; any save failure is wrapped and propagated unchanged (no
retry, no translation): `errors.Is` still recognizes every error of the
original failure's chain through the wrapping. -/
theorem update_propagates_save_failure {σ T C S : Type}
    (es : EventStore σ S) (R : AggregateRoot T C S) (ctx : Ctx) (s : σ)
    (id : String) (cmd : C) (agg : Aggregate T S)
    (hl : AggregateRepository.Load es R s id = .ok agg) :
    (agg.version = 0 →
        AggregateRepository.Update es R ctx s id cmd
          = .error .aggregateDoesNotExist)
    ∧ (agg.version ≠ 0 → ∀ agg₁,
        agg.changeState R cmd = .ok agg₁ →
        ∀ e, AggregateRepository.Save es ctx s agg₁ = .error e →
          AggregateRepository.Update es R ctx s id cmd
              = .error (.wrap "save" e)
          ∧ ∀ t, e.is t = true → (GoError.wrap "save" e).is t = true) := by
  constructor
  · intro hv
    simp [AggregateRepository.Update, hl, hv]
  · intro hv agg₁ hcs e hs
    refine ⟨?_, fun t ht => GoError.is_wrap_of_is "save" ht⟩
    simp [AggregateRepository.Update, hl, hv, hcs, hs]

/-- C5 witness: a concrete `Update` whose save loses the optimistic race;
the conflict is wrapped, not translated, and `errors.Is` still sees it. -/
theorem update_propagates_save_failure_witness :
    AggregateRepository.Update esOneConflict exRoot exCtx 0 "a" ()
        = .error (.wrap "save" (.wrap "save events" .concurrentUpdate))
    ∧ (GoError.wrap "save"
        (.wrap "save events" .concurrentUpdate)).is .concurrentUpdate
        = true := by
  have h := update_propagates_save_failure esOneConflict exRoot exCtx
    (0 : Int) "a" ()
    (AggregateRepository.replayAggregate exRoot "a" [evOne]) rfl
  have h2 := h.2 (by decide) ⟨"a", 2, 2, [()], ["c1"]⟩ rfl
    (.wrap "save events" .concurrentUpdate) rfl
  exact ⟨h2.1, h2.2 .concurrentUpdate rfl⟩

end Eventsource

namespace Eventsource

/-- C6: `Save` on an aggregate with no pending state changes succeeds
immediately, leaves the store state and the aggregate unchanged, and its
result does not depend on the event store at all (it is never contacted). -/
theorem save_noop_on_empty {σ T S : Type} (es : EventStore σ S) (ctx : Ctx)
    (s : σ) (agg : Aggregate T S) (h : agg.stateChanges = []) :
    AggregateRepository.Save es ctx s agg = .ok (s, agg)
    ∧ ∀ es' : EventStore σ S,
        AggregateRepository.Save es' ctx s agg
          = AggregateRepository.Save es ctx s agg := by
  have he : agg.stateChanges.isEmpty = true := by simp [h]
  exact ⟨by simp [AggregateRepository.Save, he],
    fun es' => by simp [AggregateRepository.Save, he]⟩

/-- C6 witness: a concrete no-op save. -/
theorem save_noop_on_empty_witness :
    AggregateRepository.Save esEmpty exCtx 0 aggClean = .ok (0, aggClean) :=
  (save_noop_on_empty esEmpty exCtx 0 aggClean rfl).1

/-- C7: when the store lists events successfully, `Load` succeeds with the
replayed aggregate: the root is the fold of the events (in order) through
`ApplyStateChange` from the zero value; under the store contract (versions
ascending and non-negative) the version is the highest `aggregateVersion`
among the events; the causation identifiers are exactly those found in event
metadata; and an empty stream yields version 0, the zero-value root and no
causation identifiers — success, not an error. -/
theorem load_replays_events {σ T C S : Type} (es : EventStore σ S)
    (R : AggregateRoot T C S) (s : σ) (id : String) (evs : List (Event S))
    (hl : es.listEvents s id = .ok evs) :
    AggregateRepository.Load es R s id
        = .ok (AggregateRepository.replayAggregate R id evs)
    ∧ (AggregateRepository.replayAggregate R id evs).root
        = evs.foldl (fun t e => R.applyStateChange t e.data) R.init
    ∧ ((evs.map fun e => e.aggregateVersion).Pairwise (· ≤ ·) →
        (∀ e ∈ evs, 0 ≤ e.aggregateVersion) →
        (AggregateRepository.replayAggregate R id evs).version
          = maxVersion evs)
    ∧ (∀ c, c ∈ (AggregateRepository.replayAggregate R id evs).causationIDs
        ↔ ∃ e ∈ evs,
            Metadata.lookupString e.metadata CausationID = some c)
    ∧ (evs = [] → AggregateRepository.replayAggregate R id evs
        = { id := id, version := 0, root := R.init, stateChanges := [],
            causationIDs := [] }) := by
  refine ⟨by simp [AggregateRepository.Load, hl], rfl, ?_, ?_, ?_⟩
  · intro hp hb
    simpa [AggregateRepository.replayAggregate, maxVersion] using
      foldl_version_eq_max evs 0 hp hb
  · intro c
    simpa [AggregateRepository.replayAggregate] using
      mem_collectCausationIDs evs c
  · rintro rfl
    rfl

/-- C7 witness: loading a one-event stream. -/
theorem load_replays_events_witness :
    AggregateRepository.Load esOne exRoot 0 "a"
        = .ok (AggregateRepository.replayAggregate exRoot "a" [evOne])
    ∧ (AggregateRepository.replayAggregate exRoot "a" [evOne]).version
        = maxVersion [evOne] := by
  have h := load_replays_events esOne exRoot (0 : Int) "a" [evOne] rfl
  exact ⟨h.1, h.2.2.1 (by decide) (by decide)⟩

/-- C8: given a successful `Load`, `Get` fails with
`ErrAggregateDoesNotExist` exactly when the loaded version is zero and
otherwise returns the loaded aggregate; it never consults `saveEvents`
(its result is invariant under replacing the store's `saveEvents`), and by
construction it returns no store state, so the store is unmodified. -/
theorem get_semantics {σ T C S : Type} (es : EventStore σ S)
    (R : AggregateRoot T C S) (s : σ) (id : String) (agg : Aggregate T S)
    (hl : AggregateRepository.Load es R s id = .ok agg) :
    (agg.version = 0 →
        AggregateRepository.Get es R s id = .error .aggregateDoesNotExist)
    ∧ (agg.version ≠ 0 → AggregateRepository.Get es R s id = .ok agg)
    ∧ (∀ f, AggregateRepository.Get
          { listEvents := es.listEvents, saveEvents := f } R s id
        = AggregateRepository.Get es R s id) := by
  refine ⟨?_, ?_, fun f => rfl⟩
  · intro h0
    simp [AggregateRepository.Get, hl, h0]
  · intro h0
    simp [AggregateRepository.Get, hl, h0]

/-- C8 witness: `Get` on a one-event stream returns the loaded aggregate. -/
theorem get_semantics_witness :
    AggregateRepository.Get esOne exRoot 0 "a"
        = .ok (AggregateRepository.replayAggregate exRoot "a" [evOne]) := by
  have h := get_semantics esOne exRoot (0 : Int) "a"
    (AggregateRepository.replayAggregate exRoot "a" [evOne]) rfl
  exact h.2.1 (by decide)

end Eventsource

namespace Accounting

/-- C9: `Book.ApplyStateChange` reaches its fatal `default` branch (a Go
panic, modelled as `none`) exactly on payloads whose type is not among the
four it declares to handle; on `BookCreated`, `BookClosed`,
`BookAccountAdded` and `BookTransactionEntered` it completes without
reaching that branch, whatever the current book state. -/
theorem book_applyStateChange_fatal_iff_unrecognized (b : Book)
    (sc : BookStateChange) :
    (Book.ApplyStateChange b sc).isSome = sc.recognized := by
  cases sc <;> rfl

end Accounting

namespace Eventsource

/-- C10: for an identifier with no persisted events and a command processed
into zero state changes, `Create` succeeds with a version-0 aggregate while
returning the store state unchanged (the no-op save path), so an immediately
following `Get` on the same identifier still fails with
`ErrAggregateDoesNotExist`. -/
theorem create_noop_command {σ T C S : Type} (es : EventStore σ S)
    (R : AggregateRoot T C S) (ctx : Ctx) (s : σ) (id : String) (cmd : C)
    (hid : id ≠ "")
    (hl : es.listEvents s id = .ok ([] : List (Event S)))
    (hc : R.processCommand R.init cmd = .ok []) :
    AggregateRepository.Create es R ctx s id cmd
        = .ok (s, { id := id, version := 0, root := R.init,
                    stateChanges := [], causationIDs := [] })
    ∧ AggregateRepository.Get es R s id
        = .error .aggregateDoesNotExist := by
  have hrepl : AggregateRepository.replayAggregate R id ([] : List (Event S))
      = { id := id, version := 0, root := R.init, stateChanges := [],
          causationIDs := [] } := rfl
  constructor
  · simp [AggregateRepository.Create, if_neg hid, AggregateRepository.Load,
      hl, hrepl, Aggregate.changeState, hc, AggregateRepository.Save]
  · simp [AggregateRepository.Get, AggregateRepository.Load, hl, hrepl]

/-- C10 witness: a concrete `Create` with a command producing no state
changes on an empty store, followed by a failing `Get`. -/
theorem create_noop_command_witness :
    AggregateRepository.Create esEmpty exRootNoop exCtx 0 "a" ()
        = .ok (0, { id := "a", version := 0, root := 0,
                    stateChanges := [], causationIDs := [] })
    ∧ AggregateRepository.Get esEmpty exRootNoop 0 "a"
        = .error .aggregateDoesNotExist :=
  create_noop_command esEmpty exRootNoop exCtx (0 : Int) "a" ()
    (by decide) rfl rfl

end Eventsource
